import Mathlib

/-!
Shallow embedding of the NexusAI control-plane core (lock manager, session
lifecycle, cascade engine, review and remediation loop) and proofs about the
specified properties.

Conventions of the embedding:
* the relational store is a `RegistryState` of plain lists; a drizzle
  `update ... where eq(id)` becomes a `List.map` guarded on the id, a
  `delete ... where` becomes a `List.filter`, an `insert` an append or cons;
* session lookups ordered by `createdAt desc` are modelled by keeping the
  session list newest-first and using `List.find?`;
* network calls (Gemini reviewer, Jules agent provider, GitHub) are oracle
  parameters: their responses are inputs of the functions that consume them;
  prompt strings sent to the providers do not affect registry state and are
  not reconstructed;
* timestamp columns (`createdAt`, `lockedAt`, `lastSyncedAt`) and the serial
  primary key of `file_locks` are omitted: no modelled behaviour reads them;
  wall-clock values used to build identifiers or ISO strings are parameters;
* JavaScript string operations are modelled on `List Char`
  (`String.prototype.includes`, `toLowerCase`, `trim`, the regexes of
  `cascade-config.ts`), keeping every definition kernel-executable.
-/

namespace Nexus

/-! ## Character-list string helpers (JavaScript string semantics) -/

/-- Whether the first list is an initial segment of the second
(`String.prototype.startsWith` on decoded characters). -/
def leadsWith : List Char → List Char → Bool
  | [], _ => true
  | _ :: _, [] => false
  | p :: ps, t :: ts => p == t && leadsWith ps ts

/-- Whether the first list is a final segment of the second
(`String.prototype.endsWith` on decoded characters). -/
def trailsWith (sfx text : List Char) : Bool :=
  leadsWith sfx.reverse text.reverse

/-- Whether the pattern occurs contiguously in the text
(`String.prototype.includes` on decoded characters). -/
def containsSeq (pat : List Char) : List Char → Bool
  | [] => pat.isEmpty
  | t :: ts => leadsWith pat (t :: ts) || containsSeq pat ts

/-- ASCII lowercasing of one character, the fragment of
`String.prototype.toLowerCase` exercised by the webhook route (bot-name and
commit-marker matching is pure ASCII). -/
def charLower (c : Char) : Char :=
  if 'A' ≤ c ∧ c ≤ 'Z' then Char.ofNat (c.toNat + 32) else c

/-- Decoded characters of a string after `toLowerCase`. -/
def lowerChars (s : String) : List Char := s.data.map charLower

/-- JavaScript whitespace characters relevant to `String.prototype.trim`. -/
def isJsWhitespace (c : Char) : Bool :=
  c == ' ' || c == '\t' || c == '\n' || c == '\r' || c == '\x0b' || c == '\x0c'

/-- Whether `value.trim().length > 0` holds: the string has a character that
is not whitespace. -/
def hasNonWs (s : String) : Bool := s.data.any (fun c => !isJsWhitespace c)

/-- First `n` characters of a string (`String.prototype.substring(0, n)`). -/
def takeChars (n : Nat) (s : String) : String := ⟨s.data.take n⟩

/-- Whether the text decomposes as `pre ++ dir ++ mid ++ sfx`: the shape of
the anchored regexes `dir(.*)sfx$` used by the core-file patterns. -/
def dirThenSfx (dir sfx : List Char) : List Char → Bool
  | [] => leadsWith dir [] && trailsWith sfx []
  | t :: ts =>
    (leadsWith dir (t :: ts) && trailsWith sfx ((t :: ts).drop dir.length)) ||
      dirThenSfx dir sfx ts

/-- Deduplication keeping the first occurrence of each element, the order
semantics of the JavaScript `new Set(array)` spread. -/
def dedupAux (seen : List String) : List String → List String
  | [] => []
  | x :: xs => if x ∈ seen then dedupAux seen xs else x :: dedupAux (x :: seen) xs

/-- Entry point of the first-occurrence deduplication. -/
def dedupKeepFirst (l : List String) : List String := dedupAux [] l

/-- Splitting a character list at a separator character, the semantics of
`String.prototype.split` with a one-character separator. -/
def splitOnChar (sep : Char) : List Char → List (List Char)
  | [] => [[]]
  | x :: xs =>
    let rest := splitOnChar sep xs
    if x == sep then [] :: rest
    else
      match rest with
      | [] => [[x]]
      | r :: rs => (x :: r) :: rs

/-! ## Data model (`src/db/schema.ts`) -/

/-- Enum `session_status` of the schema. -/
inductive SessionStatus
  | queued
  | executing
  | verifying
  | completed
  | failed
deriving DecidableEq, Repr

/-- Enum `goal_status` of the schema (`in-progress` is `inProgress`). -/
inductive GoalStatus
  | backlog
  | inProgress
  | completed
  | drifted
deriving DecidableEq, Repr

/-- Enum `cascade_status` of the schema. -/
inductive CascadeStatus
  | analyzing
  | dispatched
  | completed
  | failed
deriving DecidableEq, Repr

/-- Interface `AcceptanceCriterion` of the schema; `files` is the optional
evidence-file list. -/
structure AcceptanceCriterion where
  id : String
  text : String
  met : Bool
  reasoning : Option String
  files : Option (List String) := none
deriving DecidableEq, Repr

/-- Entries of `goals.reviewArtifacts`; the source field `type` (always the
string literal for pull requests) is `artifactType` here. -/
structure ReviewArtifact where
  artifactType : String := "pull_request"
  url : String
  sessionExternalId : String
  createdAt : String
deriving DecidableEq, Repr

/-- Row of the `sessions` table (timestamps omitted; the list holding the
rows is kept newest-first to model `orderBy createdAt desc`). -/
structure Session where
  id : String
  externalSessionId : Option String := none
  goalId : Option String := none
  cascadeId : Option String := none
  isCascadeRoot : Bool := false
  sourceRepo : String := ""
  lastReviewedCommit : Option String := none
  julesSessionUrl : Option String := none
  lastError : Option String := none
  remediationDepth : Nat := 0
  branchName : String
  baseBranch : String := "main"
  status : SessionStatus := .queued
deriving DecidableEq, Repr

/-- Row of the `goals` table. -/
structure GoalRow where
  id : String
  title : String
  description : Option String := none
  acceptanceCriteria : List AcceptanceCriterion := []
  reviewArtifacts : List ReviewArtifact := []
  status : GoalStatus := .backlog
deriving DecidableEq, Repr

/-- Row of the `cascades` table. -/
structure CascadeRow where
  id : String
  triggerSessionId : Option String := none
  coreFilesChanged : List String := []
  downstreamFiles : List String := []
  repairJobCount : Nat := 0
  summary : Option String := none
  status : CascadeStatus := .analyzing
deriving DecidableEq, Repr

/-- Row of the `file_locks` table (serial id and `lockedAt` omitted). -/
structure FileLock where
  sessionId : String
  filePath : String
deriving DecidableEq, Repr

/-- The persistent registry: the four tables of the schema. The session list
is newest-first. -/
structure RegistryState where
  sessions : List Session := []
  goals : List GoalRow := []
  locks : List FileLock := []
  cascades : List CascadeRow := []
deriving DecidableEq, Repr

/-- Drizzle `update(sessions).set(f).where(eq(sessions.id, id))`. -/
def updateSessionRow (rows : List Session) (id : String) (f : Session → Session) :
    List Session :=
  rows.map (fun s => if s.id = id then f s else s)

/-- Drizzle `update(goals).set(f).where(eq(goals.id, id))`. -/
def updateGoalRow (rows : List GoalRow) (id : String) (f : GoalRow → GoalRow) :
    List GoalRow :=
  rows.map (fun g => if g.id = id then f g else g)

/-- Drizzle `insert(cascades).values(row).onConflictDoNothing()` keyed by id. -/
def insertCascadeIfAbsent (rows : List CascadeRow) (row : CascadeRow) :
    List CascadeRow :=
  if rows.any (fun c => decide (c.id = row.id)) then rows else rows ++ [row]

/-! ## Lock manager (`src/lib/registry/lock-manager.ts`) -/

/-- Type `LockConflict` of the lock manager. -/
structure LockConflict where
  filePath : String
  sessionId : String
deriving DecidableEq, Repr

/-- Type `AcquireLockResult` of the lock manager. -/
inductive AcquireLockResult
  | ok (lockedFiles : List String)
  | conflict (conflicts : List LockConflict)
deriving DecidableEq, Repr

/-- `LockManager.acquireLocks`, sequential transaction semantics: dedupe the
requested paths, read the existing locks on them, refuse with the conflict
list when any is held by another session, otherwise insert the missing rows.
The unique-violation catch of the source recovers from a concurrent insert
racing the initial read; under sequential semantics the inserted paths are
fresh, so that branch is unreachable and is not modelled. -/
def acquireLocks (sessionId : String) (filePaths : List String) (locks : List FileLock) :
    AcquireLockResult × List FileLock :=
  let uniquePaths := dedupKeepFirst filePaths
  if uniquePaths.isEmpty then (.ok [], locks)
  else
    let existingLocks := locks.filter (fun l => decide (l.filePath ∈ uniquePaths))
    let conflicts := existingLocks.filter (fun l => decide (l.sessionId ≠ sessionId))
    if conflicts.isEmpty then
      let alreadyLockedBySession := existingLocks.map (fun l => l.filePath)
      let newLocks := (uniquePaths.filter
          (fun p => decide (p ∉ alreadyLockedBySession))).map
        (fun p => ({ sessionId := sessionId, filePath := p } : FileLock))
      if newLocks.isEmpty then (.ok uniquePaths, locks)
      else (.ok uniquePaths, locks ++ newLocks)
    else
      (.conflict (conflicts.map
        (fun l => ({ filePath := l.filePath, sessionId := l.sessionId } : LockConflict))), locks)

/-- `LockManager.transferLocks`: reassign every lock of the old session to
the new session. -/
def transferLocks (oldSessionId newSessionId : String) (locks : List FileLock) :
    List FileLock :=
  locks.map (fun l =>
    if l.sessionId = oldSessionId then { l with sessionId := newSessionId } else l)

/-- `LockManager.releaseLocks`: delete every lock of the session. -/
def releaseLocks (sessionId : String) (locks : List FileLock) : List FileLock :=
  locks.filter (fun l => decide (l.sessionId ≠ sessionId))

/-- Paths of a lock table, the column the schema constrains unique. -/
def lockPaths (locks : List FileLock) : List String :=
  locks.map (fun l => l.filePath)

/-! ## Jules status map (`src/lib/jules/status-map.ts`) -/

/-- Function `mapJulesStatusToRegistryStatus`: map the agent-provider status
string to the internal session status, unknown statuses to `none`. -/
def mapJulesStatusToRegistryStatus (status : String) : Option SessionStatus :=
  match status with
  | "PLANNING" | "RUNNING" => some .executing
  | "COMPLETED" => some .completed
  | "FAILED" | "CANCELLED" => some .failed
  | _ => none

/-! ## Sync service (`src/lib/jules/sync-service.ts`) -/

/-- Response of `julesClient.getSession`, flattened to the fields the sync
service reads (`status`, `url`, `outputs?.pullRequest?.url`). -/
structure JulesSessionInfo where
  status : String
  url : Option String := none
  pullRequestUrl : Option String := none
deriving DecidableEq, Repr

/-- Return value of `syncSessionStatus` together with the mutated registry. -/
structure SyncResultModel where
  state : RegistryState
  sessionAfter : Option Session
  externalStatus : String
  pullRequestUrl : Option String
deriving DecidableEq, Repr

/-- The `findFirst` lookup of the sync service: the or-combination of the
provided id filters. -/
def findSyncSession (sessionId? externalSessionId? : Option String)
    (sessions : List Session) : Option Session :=
  sessions.find? (fun s =>
    (match sessionId? with
      | some i => s.id == i
      | none => false) ||
    (match externalSessionId? with
      | some e => s.externalSessionId == some e
      | none => false))

/-- Function `syncSessionStatus`: reconcile one session against the agent
provider. The provider response is the `jules` parameter; `nowIso` stands for
the ISO timestamp of the artifact append. The update applies the mapped
status whenever the provider status maps, appends the pull-request review
artifact to the goal on completion (deduplicated by url and external id), and
deletes the session locks on the terminal mapped statuses. -/
def syncSessionStatus (sessionId? externalSessionId? : Option String)
    (jules : JulesSessionInfo) (nowIso : String) (st : RegistryState) :
    Except String SyncResultModel :=
  if sessionId?.isNone && externalSessionId?.isNone then
    .error "sessionId or externalSessionId is required"
  else
    match findSyncSession sessionId? externalSessionId? st.sessions with
    | none => .error "Session not found"
    | some session =>
      match session.externalSessionId with
      | none => .error "Session has no external Jules session ID"
      | some externalSessionId =>
        let mapped := mapJulesStatusToRegistryStatus jules.status
        let prUrl := jules.pullRequestUrl
        let sessions1 := match mapped with
          | some m => updateSessionRow st.sessions session.id (fun s =>
              { s with status := m, julesSessionUrl := (match jules.url with
                         | some u => some u
                         | none => session.julesSessionUrl), lastError := none })
          | none => st.sessions
        let goals1 :=
          if mapped = some .completed then
            match session.goalId, prUrl with
            | some gid, some url =>
              match st.goals.find? (fun g => g.id == gid) with
              | some goal =>
                if goal.reviewArtifacts.any (fun a =>
                    a.artifactType == "pull_request" && a.url == url &&
                      a.sessionExternalId == externalSessionId) then
                  st.goals
                else
                  updateGoalRow st.goals gid (fun g =>
                    { g with reviewArtifacts := g.reviewArtifacts ++
                        [{ artifactType := "pull_request", url := url, sessionExternalId := externalSessionId, createdAt := nowIso }] })
              | none => st.goals
            | _, _ => st.goals
          else st.goals
        let locks1 :=
          if mapped = some .completed then
            st.locks.filter (fun l => decide (l.sessionId ≠ session.id))
          else st.locks
        let locks2 :=
          if mapped = some .failed then
            locks1.filter (fun l => decide (l.sessionId ≠ session.id))
          else locks1
        let st1 : RegistryState :=
          { st with sessions := sessions1, goals := goals1, locks := locks2 }
        .ok { state := st1, sessionAfter := st1.sessions.find? (fun s => s.id == session.id), externalStatus := jules.status, pullRequestUrl := prUrl }

/-! ## Cascade configuration (`src/lib/cascade-config.ts`) -/

/-- Constant `CORE_FILES` (exact strings; `Array.prototype.includes` compares
them by equality, glob-shaped entries included). -/
def CORE_FILES : List String :=
  ["src/db/schema.ts",
   "drizzle/schema.ts",
   "src/lib/types.ts",
   "src/types/index.ts",
   "src/types/**/*.ts",
   "src/lib/api-contracts.ts",
   "src/lib/response-types.ts",
   "src/lib/auth/session.ts",
   "src/lib/config/index.ts"]

/-- Function `isCoreFile`: whether the path matches one of the regexes of
`CORE_FILE_PATTERNS` (in order: the schema file, the shared type files, any
file under `src/types/` ending in `.ts`, the api-contracts file, any file
under `src/lib/auth/` ending in `.ts`; file-name dots are escaped in the
source regexes). -/
def isCoreFile (filePath : String) : Bool :=
  trailsWith "src/db/schema.ts".data filePath.data ||
  trailsWith "src/lib/types.ts".data filePath.data ||
  dirThenSfx "src/types/".data ".ts".data filePath.data ||
  trailsWith "src/lib/api-contracts.ts".data filePath.data ||
  dirThenSfx "src/lib/auth/".data ".ts".data filePath.data

/-- Shape of the constant `CASCADE_CONFIG` (`analysisTimeout` in
milliseconds; `minConfidenceScore` is the float literal 0.7, modelled as an
exact rational). -/
structure CascadeConfig where
  maxParallelAgents : Nat
  analysisTimeout : Nat
  minConfidenceScore : ℚ
  autoDispatchInDev : Bool
deriving DecidableEq, Repr

def CASCADE_CONFIG : CascadeConfig :=
  { maxParallelAgents := 5, analysisTimeout := 60000, minConfidenceScore := ⟨7, 10, by norm_num, by decide⟩, autoDispatchInDev := false }

/-! ## Cascade engine (`src/lib/auditor/cascade-engine.ts`) -/

/-- Status field of a `FileChange`. -/
inductive FileChangeStatus
  | added
  | modified
  | removed
deriving DecidableEq, Repr

/-- Type `FileChange`. -/
structure FileChange where
  filePath : String
  diff : String
  status : FileChangeStatus
deriving DecidableEq, Repr

/-- Priorities of a repair job. -/
inductive JobPriority
  | high
  | medium
  | low
deriving DecidableEq, Repr

/-- Type `CascadeRepairJob`. -/
structure CascadeRepairJob where
  id : String
  files : List String
  prompt : String
  priority : JobPriority
  estimatedImpact : String
deriving DecidableEq, Repr

/-- Type `CascadeAnalysisResult`; `confidence` is the float of the source,
modelled as a rational. -/
structure CascadeAnalysisResult where
  isCascade : Bool
  coreFilesChanged : List String
  downstreamFiles : List String
  repairJobs : List CascadeRepairJob
  summary : String
  confidence : ℚ
deriving DecidableEq, Repr

/-- Function `analyzeCascade`. The Gemini call is the oracle parameter: its
parsed output on success, the thrown error message on failure. When a core
file changed and the oracle answers, the repair jobs pass the confidence
filter (all dropped below `minConfidenceScore`) and the `maxParallelAgents`
truncation (`Array.prototype.slice(0, 5)`), in the order the oracle listed
them. -/
def analyzeCascade (allChangedFiles : List FileChange)
    (oracle : Except String CascadeAnalysisResult) : CascadeAnalysisResult :=
  let coreFileChanges := allChangedFiles.filter (fun change => isCoreFile change.filePath)
  if coreFileChanges.isEmpty then
    { isCascade := false, coreFilesChanged := [], downstreamFiles := [], repairJobs := [],
      summary := "No core files changed - cascade analysis not required", confidence := 1 }
  else
    match oracle with
    | .ok analysis =>
      let qualifiedJobs := (analysis.repairJobs.filter
          (fun _ => decide (CASCADE_CONFIG.minConfidenceScore ≤ analysis.confidence))).take
        CASCADE_CONFIG.maxParallelAgents
      { analysis with repairJobs := qualifiedJobs }
    | .error msg =>
      { isCascade := false, coreFilesChanged := coreFileChanges.map (fun f => f.filePath), downstreamFiles := [], repairJobs := [],
        summary := "Cascade analysis failed: " ++ msg, confidence := 0 }

/-- Response of `julesClient.createSession`, the fields the callers read. -/
structure JulesCreatedSession where
  id : String
  url : Option String := none
deriving DecidableEq, Repr

/-- Outcome of `autoRemediate`: the not-found and max-depth errors are thrown
before any mutation; a dispatch failure marks the already-inserted child
failed and then rethrows. -/
inductive AutoRemediateOutcome
  | sessionNotFound
  | maxDepthReached
  | dispatched (newSessionId externalSessionId : String)
  | dispatchFailed (newSessionId : String) (message : String)
deriving DecidableEq, Repr

/-- Function `autoRemediate` of the cascade engine (the CI self-healing
path): refuse when the session is unknown or at the depth bound, otherwise
insert a child session at depth plus one, link the cascade lineage (reusing
the parent cascade or inserting a fresh auto-remediation cascade named from
`Date.now()`, the `nowMs` parameter), transfer the parent locks to the child
in the same transaction, then dispatch the agent: on success the child turns
`executing` with the external id recorded, on failure `failed` with the
dispatch error. The remediation prompt (goal criteria, parent diff, CI logs)
only feeds the provider and is not reconstructed; `logs` is kept as a
parameter for the interface. -/
def autoRemediate (sessionId : String) (logs : String) (childUuid : String)
    (nowMs : Nat) (dispatch : Except String JulesCreatedSession)
    (st : RegistryState) : AutoRemediateOutcome × RegistryState :=
  match st.sessions.find? (fun s => s.id == sessionId) with
  | none => (.sessionNotFound, st)
  | some session =>
    if session.remediationDepth ≥ 3 then (.maxDepthReached, st)
    else
      let newSessionId := "remediate-" ++ childUuid
      let child : Session :=
        { id := newSessionId, goalId := session.goalId, sourceRepo := session.sourceRepo, branchName := session.branchName, baseBranch := session.baseBranch, status := .queued, remediationDepth := session.remediationDepth + 1 }
      let lineage : Session × List CascadeRow :=
        match session.cascadeId with
        | some cid => ({ child with cascadeId := some cid }, st.cascades)
        | none =>
          let newCascadeId := "cascade_remediate_" ++ sessionId ++ "_" ++ toString nowMs
          ({ child with cascadeId := some newCascadeId },
           insertCascadeIfAbsent st.cascades
             { id := newCascadeId, triggerSessionId := some sessionId, summary := some ("Auto-remediation cascade for session " ++ sessionId), status := .analyzing })
      let locks1 := transferLocks session.id newSessionId st.locks
      match dispatch with
      | .ok js =>
        (.dispatched newSessionId js.id,
         { st with
             sessions := { lineage.1 with status := .executing, externalSessionId := some js.id, julesSessionUrl := js.url } :: st.sessions, locks := locks1, cascades := lineage.2 })
      | .error msg =>
        (.dispatchFailed newSessionId msg,
         { st with
             sessions := { lineage.1 with status := .failed, lastError := some (takeChars 5000 ("Jules dispatch failed: " ++ msg)) }
                 :: st.sessions, locks := locks1, cascades := lineage.2 })

/-! ## Auto reviewer (`src/lib/auditor/auto-reviewer.ts`) -/

/-- Severity enum of the review schema. -/
inductive Severity
  | none
  | minor
  | major
deriving DecidableEq, Repr

/-- One entry of `criteriaAssessment`, keyed by criterion id. -/
structure CriterionAssessment where
  met : Bool
  reasoning : String
  evidenceFiles : List String
deriving DecidableEq, Repr

/-- Parsed output of the review oracle (`reviewSchema`); the assessment
record is an association list keyed by criterion id. -/
structure ReviewObject where
  severity : Severity
  summary : String
  findings : List String := []
  recommendedFixPrompt : Option String := none
  criteriaAssessment : Option (List (String × CriterionAssessment)) := none
deriving DecidableEq, Repr

/-- Event type of a review request. -/
inductive ReviewEventType
  | pullRequest
  | push
deriving DecidableEq, Repr

/-- Type `ReviewInput`. -/
structure ReviewInput where
  eventType : ReviewEventType
  owner : String
  repo : String
  branch : String
  sha : String
  prNumber : Option Nat := none
deriving DecidableEq, Repr

/-- Outcome tags of `ReviewResult`. -/
inductive ReviewOutcome
  | reviewPosted
  | duplicateCommitSkipped
  | noActiveSession
  | missingGoal
  | emptyDiffSkipped
deriving DecidableEq, Repr

/-- Comment target of a posted review. -/
inductive CommentTarget
  | pullRequest
  | commit
deriving DecidableEq, Repr

/-- The `cascadeAnalysis` summary of `ReviewResult`. -/
structure CascadeAnalysisSummary where
  isCascade : Bool
  coreFilesChanged : List String
  repairJobCount : Nat
deriving DecidableEq, Repr

/-- Type `ReviewResult`. -/
structure ReviewResultModel where
  outcome : ReviewOutcome
  severity : Option Severity := Option.none
  sessionId : Option String := Option.none
  goalId : Option String := Option.none
  commentTarget : Option CommentTarget := Option.none
  cascadeAnalysis : Option CascadeAnalysisSummary := Option.none
  remediationTriggered : Option Bool := Option.none
  newSessionId : Option String := Option.none
deriving DecidableEq, Repr

/-- Constant `activeSessionStatuses` of the auto reviewer. -/
def activeSessionStatuses : List SessionStatus := [.queued, .executing, .verifying]

/-- Record access `assessment[criterionId]` on the association list. -/
def lookupAssessment (a : List (String × CriterionAssessment)) (id : String) :
    Option CriterionAssessment :=
  (a.find? (fun p => p.1 == id)).map (fun p => p.2)

/-- Scan of a `diff --git` line after the `a/` marker: the first split
`g1 ++ " b/" ++ g2` with both sides non-empty, matching the lazy groups of
the extraction regex; the scan starts after one consumed character so `g1`
is non-empty. -/
def findTailAfterSep : List Char → Option (List Char)
  | [] => Option.none
  | c :: cs =>
    if leadsWith " b/".data (c :: cs) && !((c :: cs).drop 3).isEmpty then
      some ((c :: cs).drop 3)
    else findTailAfterSep cs

/-- File name of one diff header line, when the line matches
`diff --git a/(.+?) b/(.+?)` anchored at both ends (the second group is
kept, as in the source). -/
def diffGitFileName (line : List Char) : Option String :=
  if leadsWith "diff --git a/".data line then
    match line.drop 13 with
    | [] => Option.none
    | _ :: ts => (findTailAfterSep ts).map (fun g2 => ⟨g2⟩)
  else Option.none

/-- Function `extractChangedFilesFromDiff`: the deduplicated second capture
groups of the per-line diff header regex. -/
def extractChangedFilesFromDiff (diff : String) : List String :=
  dedupKeepFirst ((splitOnChar '\n' diff.data).filterMap diffGitFileName)

/-- The active-session lookup of `reviewWebhookEvent`: the most recent
session of the repo and branch whose status is active. -/
def findActiveReviewSession (sessions : List Session) (sourceRepo branch : String) :
    Option Session :=
  sessions.find? (fun s =>
    s.sourceRepo == sourceRepo && s.branchName == branch &&
      activeSessionStatuses.contains s.status)

/-- Duplicate-commit gate of `reviewWebhookEvent`: the stored commit is
truthy (non-empty) and equals the event commit. -/
def isDuplicateCommit (lastReviewedCommit : Option String) (sha : String) : Bool :=
  match lastReviewedCommit with
  | some c => c != "" && c == sha
  | Option.none => false

/-- Failure determination of `reviewWebhookEvent`: with an assessment, some
assessed criterion of the goal is unmet; without one, the severity is major. -/
def reviewHasFailure (goal : GoalRow) (review : ReviewObject) : Bool :=
  match review.criteriaAssessment with
  | some a =>
    goal.acceptanceCriteria.any (fun c =>
      match lookupAssessment a c.id with
      | some r => !r.met
      | Option.none => false)
  | Option.none => review.severity == .major

/-- Criteria merge of `reviewWebhookEvent`: overwrite `met`, `reasoning` and
the evidence files of the criteria the assessment addresses; without an
assessment the goals are untouched. -/
def mergeCriteria (goals : List GoalRow) (goal : GoalRow) (review : ReviewObject) :
    List GoalRow :=
  match review.criteriaAssessment with
  | some a =>
    updateGoalRow goals goal.id (fun g =>
      { g with acceptanceCriteria := goal.acceptanceCriteria.map (fun c =>
          match lookupAssessment a c.id with
          | some r => { c with met := r.met, reasoning := some r.reasoning, files := some r.evidenceFiles }
          | Option.none => c) })
  | Option.none => goals

/-- Decision core of `reviewWebhookEvent`, the code past the gates (diff
fetched and non-empty, active session and goal located): merge the
assessment, record the cascade, then apply the failure and depth branches to
the parent session, the child session and the lock table. -/
def reviewApplyDecision (input : ReviewInput) (diff : String) (review : ReviewObject)
    (cascadeOracle : Except String CascadeAnalysisResult)
    (dispatch : Except String JulesCreatedSession) (childUuid : String)
    (session : Session) (goal : GoalRow) (st : RegistryState) :
    ReviewResultModel × RegistryState :=
  let changedFiles := extractChangedFilesFromDiff diff
  let fileChanges := changedFiles.map (fun fp =>
    ({ filePath := fp, diff := diff, status := .modified } : FileChange))
  let cascadeResult := analyzeCascade fileChanges cascadeOracle
  let goals1 := mergeCriteria st.goals goal review
  let hasFailure := reviewHasFailure goal review
  let cascades1 :=
    if cascadeResult.isCascade then
      insertCascadeIfAbsent st.cascades
        { id := session.id ++ "-cascade", triggerSessionId := some session.id, coreFilesChanged := cascadeResult.coreFilesChanged, downstreamFiles := cascadeResult.downstreamFiles, repairJobCount := cascadeResult.repairJobs.length, summary := some cascadeResult.summary, status := .analyzing }
    else st.cascades
  let commentTarget : CommentTarget :=
    if input.eventType = .pullRequest then .pullRequest else .commit
  let cascadeSummary : CascadeAnalysisSummary :=
    { isCascade := cascadeResult.isCascade, coreFilesChanged := cascadeResult.coreFilesChanged, repairJobCount := cascadeResult.repairJobs.length }
  if hasFailure then
    if session.remediationDepth ≥ 3 then
      let manualMsg :=
        "Maximum remediation depth reached. Manual intervention required."
      let sessions1 := updateSessionRow st.sessions session.id (fun s =>
        { s with status := .failed, lastError := some manualMsg })
      let goals2 := updateGoalRow goals1 goal.id (fun g =>
        { g with status := .drifted, description := some (match goal.description with
                   | some d => d ++ "\n\n" ++ manualMsg
                   | Option.none => manualMsg) })
      ({ outcome := .reviewPosted, severity := some review.severity, sessionId := some session.id, goalId := some goal.id, commentTarget := some commentTarget, cascadeAnalysis := some cascadeSummary, remediationTriggered := some false, newSessionId := Option.none },
       { st with sessions := sessions1, goals := goals2, cascades := cascades1 })
    else
      let newSessionId := "remediate-" ++ childUuid
      let child : Session :=
        { id := newSessionId, goalId := some goal.id, sourceRepo := session.sourceRepo, branchName := session.branchName, baseBranch := session.baseBranch, status := .queued, remediationDepth := session.remediationDepth + 1 }
      let locks1 := transferLocks session.id newSessionId st.locks
      let child1 :=
        match dispatch with
        | .ok js =>
          { child with status := .executing, externalSessionId := some js.id, julesSessionUrl := js.url }
        | .error msg =>
          { child with status := .failed, lastError := some (takeChars 5000 ("Jules dispatch failed: " ++ msg)) }
      let sessions1 := child1 :: updateSessionRow st.sessions session.id (fun s =>
        { s with lastReviewedCommit := some input.sha, status := .failed })
      ({ outcome := .reviewPosted, severity := some review.severity, sessionId := some session.id, goalId := some goal.id, commentTarget := some commentTarget, cascadeAnalysis := some cascadeSummary, remediationTriggered := some true, newSessionId := some newSessionId },
       { st with sessions := sessions1, goals := goals1, locks := locks1, cascades := cascades1 })
  else
    let sessions1 :=
      if session.remediationDepth < 3 then
        updateSessionRow st.sessions session.id (fun s =>
          { s with lastReviewedCommit := some input.sha, status := .completed })
      else st.sessions
    ({ outcome := .reviewPosted, severity := some review.severity, sessionId := some session.id, goalId := some goal.id, commentTarget := some commentTarget, cascadeAnalysis := some cascadeSummary, remediationTriggered := some false, newSessionId := Option.none },
     { st with sessions := sessions1, goals := goals1, cascades := cascades1 })

/-- Function `reviewWebhookEvent`. Oracles and generated identifiers are
parameters: `diff` is the text fetched from GitHub, `review` the parsed
Gemini review, `cascadeOracle` the Gemini cascade decomposition consumed by
the parallel `analyzeCascade` call, `dispatch` the agent-provider response
for the child dispatch, `childUuid` the generated uuid of the child id.
Comment posting is external output and has no registry effect. -/
def reviewWebhookEvent (input : ReviewInput) (diff : String) (review : ReviewObject)
    (cascadeOracle : Except String CascadeAnalysisResult)
    (dispatch : Except String JulesCreatedSession) (childUuid : String)
    (st : RegistryState) : ReviewResultModel × RegistryState :=
  let sourceRepo := input.owner ++ "/" ++ input.repo
  match findActiveReviewSession st.sessions sourceRepo input.branch with
  | Option.none => ({ outcome := .noActiveSession }, st)
  | some session =>
    if isDuplicateCommit session.lastReviewedCommit input.sha then
      ({ outcome := .duplicateCommitSkipped, sessionId := some session.id, goalId := session.goalId }, st)
    else
      match session.goalId with
      | Option.none => ({ outcome := .missingGoal, sessionId := some session.id }, st)
      | some goalId =>
        match st.goals.find? (fun g => g.id == goalId) with
        | Option.none =>
          ({ outcome := .missingGoal, sessionId := some session.id, goalId := some goalId }, st)
        | some goal =>
          if !hasNonWs diff then
            ({ outcome := .emptyDiffSkipped, sessionId := some session.id, goalId := some goal.id }, st)
          else
            reviewApplyDecision input diff review cascadeOracle dispatch childUuid session goal st

/-! ## GitHub webhook route (`src/app/api/webhooks/github/route.ts`), push branch -/

/-- Author object of a push-payload commit. -/
structure PushAuthor where
  username : Option String := Option.none
  name : Option String := Option.none
deriving DecidableEq, Repr

/-- Commit object of a push payload (`added`, `modified`, `removed` default
to the empty list as the source applies `?? []`). -/
structure PushCommit where
  message : Option String := Option.none
  author : Option PushAuthor := Option.none
  added : List String := []
  modified : List String := []
  removed : List String := []
deriving DecidableEq, Repr

/-- Push payload (`pushEventSchema`); the schema field `after` is `afterSha`
here. -/
structure PushPayload where
  ref : String
  afterSha : String
  repoName : String
  ownerName : Option String := Option.none
  ownerLogin : Option String := Option.none
  senderLogin : Option String := Option.none
  pusherName : Option String := Option.none
  headCommit : Option PushCommit := Option.none
  commits : List PushCommit := []
deriving DecidableEq, Repr

/-- Function `parseBranchFromRef`. -/
def parseBranchFromRef (ref : String) : String :=
  if leadsWith "refs/heads/".data ref.data then ⟨ref.data.drop 11⟩ else ref

/-- The author-candidate list of `isAutomatedCommit`: sender login, pusher
name, head-commit author fields, every commit author field; non-strings and
blank strings dropped, the rest lowercased. -/
def pushAuthorCandidates (p : PushPayload) : List (List Char) :=
  ((([p.senderLogin, p.pusherName,
      p.headCommit.bind (fun c => c.author.bind (fun a => a.username)),
      p.headCommit.bind (fun c => c.author.bind (fun a => a.name))] ++
     p.commits.flatMap (fun c =>
       [c.author.bind (fun a => a.username),
        c.author.bind (fun a => a.name)])).filterMap id).filter
    hasNonWs).map lowerChars

/-- The commit-message list of `isAutomatedCommit`: head-commit message and
every commit message, blank entries dropped, lowercased. -/
def pushCommitMessages (p : PushPayload) : List (List Char) :=
  ((([p.headCommit.bind (fun c => c.message)] ++
     p.commits.map (fun c => c.message)).filterMap id).filter
    hasNonWs).map lowerChars

/-- Function `isAutomatedCommit`: an author candidate contains the bot name,
or a commit message contains the auto marker (both lowercased). -/
def isAutomatedCommit (p : PushPayload) : Bool :=
  if (pushAuthorCandidates p).any (fun a => containsSeq "jules".data a) then true
  else (pushCommitMessages p).any (fun m => containsSeq "[nexus-auto]".data m)

/-- Precedence used by `collectPushFileChanges`. -/
def filePrecedence : FileChangeStatus → Nat
  | .modified => 1
  | .added => 2
  | .removed => 3

/-- One `addFile` step of `collectPushFileChanges` on the insertion-ordered
map (`Map.set` keeps the original insertion position). -/
def addPushFile (files : List (String × FileChangeStatus)) (fp : String)
    (status : FileChangeStatus) : List (String × FileChangeStatus) :=
  match files.find? (fun e => e.1 == fp) with
  | Option.none => files ++ [(fp, status)]
  | some cur =>
    if filePrecedence status ≥ filePrecedence cur.2 then
      files.map (fun e => if e.1 = fp then (fp, status) else e)
    else files

/-- Function `collectPushFileChanges`: fold commits in order, processing the
modified, added and removed lists of each, then emit the map entries with the
placeholder diff of the source. -/
def collectPushFileChanges (p : PushPayload) : List FileChange :=
  (p.commits.foldl (fun files commit =>
    let files1 := commit.modified.foldl (fun fs fp => addPushFile fs fp .modified) files
    let files2 := commit.added.foldl (fun fs fp => addPushFile fs fp .added) files1
    commit.removed.foldl (fun fs fp => addPushFile fs fp .removed) files2) []).map
    (fun e => { filePath := e.1, status := e.2, diff := "Diff unavailable in GitHub push payload; analyze by file-level change metadata." })

/-- Function `detectConfiguredCoreFiles`. -/
def detectConfiguredCoreFiles (fileChanges : List FileChange) : List String :=
  (fileChanges.map (fun c => c.filePath)).filter
    (fun fp => CORE_FILES.contains fp || isCoreFile fp)

/-- Routing outcome of the push branch of the webhook POST handler:
a missing owner is a 400, an automated commit is skipped with a 202 before
the review call, otherwise the review runs and cascade analysis is requested
exactly when a core file changed and some file changed. -/
inductive PushHandling
  | invalidOwner
  | ignoredAutomated
  | processed (cascadeTriggered : Bool)
deriving DecidableEq, Repr

/-- The push branch of the webhook POST handler, reduced to its routing
decision (signature verification, JSON parsing and the downstream calls are
outside this decision). -/
def handlePushEvent (p : PushPayload) : PushHandling :=
  let owner := match p.ownerLogin with
    | some l => some l
    | Option.none => p.ownerName
  match owner with
  | Option.none => .invalidOwner
  | some _ =>
    if isAutomatedCommit p then .ignoredAutomated
    else
      let fileChanges := collectPushFileChanges p
      let coreFilesChanged := detectConfiguredCoreFiles fileChanges
      .processed (!coreFilesChanged.isEmpty && !fileChanges.isEmpty)

/-! ## Force-terminate route (`src/app/api/sessions/[id]/terminate/route.ts`) -/

/-- Success body of the terminate route. -/
structure TerminateResult where
  success : Bool
  message : String
  sessionId : String
deriving DecidableEq, Repr

/-- POST handler of the terminate route: refuse an empty id, otherwise set
the session (when present) to `failed` with the termination message, release
its locks whether or not a session row matched, and report success. -/
def terminateSession (id : String) (st : RegistryState) :
    Except String (TerminateResult × RegistryState) :=
  if id == "" then .error "Session ID is required"
  else
    let sessions1 := updateSessionRow st.sessions id (fun s =>
      { s with status := .failed, lastError := some "Manually terminated by Admin/Test teardown" })
    let locks1 := releaseLocks id st.locks
    .ok ({ success := true, message := "Session terminated and locks released", sessionId := id },
         { st with sessions := sessions1, locks := locks1 })

/-! ## Observation helpers used by the properties -/

/-- Sessions of the second list whose id is absent from the first: the rows
an operation inserted. -/
def createdSessions (before after : List Session) : List Session :=
  after.filter (fun s => !(before.any (fun t => t.id == s.id)))

/-- Whether the file sets of the jobs are pairwise disjoint (each pair of
distinct positions shares no path). -/
def pairwiseDisjointFilesB : List CascadeRepairJob → Bool
  | [] => true
  | j :: js =>
    (js.all (fun k => j.files.all (fun p => !(k.files.contains p)))) &&
      pairwiseDisjointFilesB js

/-! ## Concrete scenarios used by the instances and counterexamples -/

/-- Push review request on commit abc of branch main of repo o/r. -/
def pushReviewInput : ReviewInput :=
  { eventType := .push, owner := "o", repo := "r", branch := "main", sha := "abc" }

/-- Review oracle output with an empty assessment and no failure. -/
def cleanReviewObject : ReviewObject :=
  { severity := Severity.none, summary := "ok", criteriaAssessment := some [] }

/-- Review oracle output reporting major severity without an assessment. -/
def majorReviewObject : ReviewObject :=
  { severity := .major, summary := "architectural drift" }

/-- A goal row with no acceptance criteria. -/
def goalRowG1 : GoalRow := { id := "g1", title := "t" }

/-- An executing session at remediation depth 1 on o/r main. -/
def parentDepth1 : Session :=
  { id := "p1", goalId := some "g1", sourceRepo := "o/r", branchName := "main", remediationDepth := 1, status := .executing }

/-- Registry holding only the depth-1 parent and its goal. -/
def remediationParentState : RegistryState :=
  { sessions := [parentDepth1], goals := [goalRowG1] }

/-- The child session the review-failure path inserts for the depth-1 parent
when the dispatch fails with message e and the generated uuid is u1. -/
def remediationChildFailed : Session :=
  { id := "remediate-u1", goalId := some "g1", sourceRepo := "o/r", branchName := "main", status := .failed, lastError := some "Jules dispatch failed: e", remediationDepth := 2 }

/-- A verifying session at remediation depth 3 on o/r main. -/
def verifyingDepth3 : Session :=
  { id := "s3", goalId := some "g1", sourceRepo := "o/r", branchName := "main", status := .verifying, remediationDepth := 3 }

/-- Registry holding only the depth-3 session and its goal. -/
def depth3State : RegistryState :=
  { sessions := [verifyingDepth3], goals := [goalRowG1] }

/-- A verifying session at remediation depth 0 on o/r main. -/
def verifyingParent : Session :=
  { id := "s1", goalId := some "g1", sourceRepo := "o/r", branchName := "main", status := .verifying }

/-- Registry holding the depth-0 verifying session and its goal. -/
def reviewPassState : RegistryState :=
  { sessions := [verifyingParent], goals := [goalRowG1] }

/-- The parent row after the passing review marks it completed. -/
def completedParent : Session :=
  { id := "s1", goalId := some "g1", sourceRepo := "o/r", branchName := "main", status := .completed, lastReviewedCommit := some "abc" }

/-- A change touching the schema core file. -/
def schemaChange : FileChange :=
  { filePath := "src/db/schema.ts", diff := "d", status := .modified }

/-- Cascade oracle output whose two jobs share the path a.ts. -/
def overlappingOracle : CascadeAnalysisResult :=
  { isCascade := true, coreFilesChanged := ["src/db/schema.ts"], downstreamFiles := ["a.ts", "b.ts"],
    repairJobs :=
      [{ id := "j1", files := ["a.ts"], prompt := "p1", priority := .high, estimatedImpact := "high" },
       { id := "j2", files := ["a.ts", "b.ts"], prompt := "p2", priority := .low, estimatedImpact := "low" }],
    summary := "overlap", confidence := 1 }

/-- Cascade oracle output with two disjoint jobs. -/
def disjointOracle : CascadeAnalysisResult :=
  { isCascade := true, coreFilesChanged := ["src/db/schema.ts"], downstreamFiles := ["a.ts", "b.ts"],
    repairJobs :=
      [{ id := "j1", files := ["a.ts"], prompt := "p1", priority := .high, estimatedImpact := "high" },
       { id := "j2", files := ["b.ts"], prompt := "p2", priority := .low, estimatedImpact := "low" }],
    summary := "disjoint", confidence := 1 }

/-- Cascade oracle output listing five low-priority jobs before one
high-priority job. -/
def sixJobOracle : CascadeAnalysisResult :=
  { isCascade := true, coreFilesChanged := ["src/db/schema.ts"], downstreamFiles := [],
    repairJobs :=
      [{ id := "l1", files := ["f1.ts"], prompt := "p", priority := .low, estimatedImpact := "i" },
       { id := "l2", files := ["f2.ts"], prompt := "p", priority := .low, estimatedImpact := "i" },
       { id := "l3", files := ["f3.ts"], prompt := "p", priority := .low, estimatedImpact := "i" },
       { id := "l4", files := ["f4.ts"], prompt := "p", priority := .low, estimatedImpact := "i" },
       { id := "l5", files := ["f5.ts"], prompt := "p", priority := .low, estimatedImpact := "i" },
       { id := "h6", files := ["f6.ts"], prompt := "p", priority := .high, estimatedImpact := "i" }],
    summary := "cap", confidence := 1 }

/-- The high-priority job listed last by `sixJobOracle`. -/
def highJobH6 : CascadeRepairJob :=
  { id := "h6", files := ["f6.ts"], prompt := "p", priority := .high, estimatedImpact := "i" }

/-- A push payload whose commit messages carry the automation marker. -/
def autoPush : PushPayload :=
  { ref := "refs/heads/main", afterSha := "abc", repoName := "r", ownerLogin := some "o",
    headCommit := some { message := some "fix: remediation [Nexus-Auto]" },
    commits := [{ message := some "fix: remediation [Nexus-Auto]" }] }

/-! ## Helper lemmas -/

theorem dedupAux_mem (a : String) (seen l : List String) :
    a ∈ dedupAux seen l ↔ a ∈ l ∧ a ∉ seen := by
  induction l generalizing seen with
  | nil => simp [dedupAux]
  | cons x xs ih =>
    by_cases hx : x ∈ seen
    · simp only [dedupAux, hx, if_true, List.mem_cons, ih]
      constructor
      · rintro ⟨h1, h2⟩
        exact ⟨Or.inr h1, h2⟩
      · rintro ⟨rfl | h1, h2⟩
        · exact absurd hx h2
        · exact ⟨h1, h2⟩
    · simp only [dedupAux, hx, if_false, List.mem_cons, ih]
      constructor
      · rintro (rfl | ⟨h1, h2⟩)
        · exact ⟨Or.inl rfl, hx⟩
        · refine ⟨Or.inr h1, fun hs => h2 (Or.inr hs)⟩
      · rintro ⟨rfl | h1, h2⟩
        · exact Or.inl rfl
        · by_cases hax : a = x
          · exact Or.inl hax
          · exact Or.inr ⟨h1, fun hs => (hs.elim hax h2 : False)⟩

theorem dedupAux_nodup (seen l : List String) : (dedupAux seen l).Nodup := by
  induction l generalizing seen with
  | nil => simp [dedupAux]
  | cons x xs ih =>
    by_cases hx : x ∈ seen <;> simp only [dedupAux, hx, if_true, if_false]
    · exact ih seen
    · refine List.nodup_cons.mpr ⟨fun hmem => ?_, ih (x :: seen)⟩
      exact ((dedupAux_mem x (x :: seen) xs).mp hmem).2 (List.mem_cons_self x seen)

theorem dedupKeepFirst_mem (a : String) (l : List String) :
    a ∈ dedupKeepFirst l ↔ a ∈ l := by
  simp [dedupKeepFirst, dedupAux_mem]

theorem dedupKeepFirst_nodup (l : List String) : (dedupKeepFirst l).Nodup :=
  dedupAux_nodup [] l

theorem minConfidenceScore_eq :
    CASCADE_CONFIG.minConfidenceScore = 7 / 10 := by
  show (⟨7, 10, by norm_num, by decide⟩ : ℚ) = 7 / 10
  rw [Rat.mk'_eq_divInt, Rat.divInt_eq_div]
  norm_num

theorem lockPaths_transferLocks (o n : String) (locks : List FileLock) :
    lockPaths (transferLocks o n locks) = lockPaths locks := by
  induction locks with
  | nil => rfl
  | cons l ls ih =>
    simp only [lockPaths, transferLocks, List.map_cons] at ih ⊢
    by_cases hl : l.sessionId = o <;> simp only [hl, if_true, if_false, ih]

theorem lockPaths_append (a b : List FileLock) :
    lockPaths (a ++ b) = lockPaths a ++ lockPaths b := by
  simp [lockPaths]

theorem lockPaths_mkLocks (sid : String) (ps : List String) :
    lockPaths (ps.map (fun p => ({ sessionId := sid, filePath := p } : FileLock))) = ps := by
  induction ps with
  | nil => rfl
  | cons p ps ih =>
    simp only [lockPaths, List.map_cons] at ih ⊢
    rw [ih]

theorem mem_conflictCandidates (sid : String) (paths : List String)
    (locks : List FileLock) (l : FileLock) :
    l ∈ (locks.filter (fun l => decide (l.filePath ∈ dedupKeepFirst paths))).filter
        (fun l => decide (l.sessionId ≠ sid)) ↔
      l ∈ locks ∧ l.filePath ∈ paths ∧ l.sessionId ≠ sid := by
  constructor
  · intro hmem
    rcases List.mem_filter.mp hmem with ⟨hmem1, hdec⟩
    rcases List.mem_filter.mp hmem1 with ⟨hl, hdec2⟩
    rw [decide_eq_true_eq] at hdec hdec2
    exact ⟨hl, (dedupKeepFirst_mem _ _).mp hdec2, hdec⟩
  · rintro ⟨hl, hp, hs⟩
    exact List.mem_filter.mpr ⟨List.mem_filter.mpr
      ⟨hl, by rw [decide_eq_true_eq]; exact (dedupKeepFirst_mem _ _).mpr hp⟩,
      by rw [decide_eq_true_eq]; exact hs⟩

theorem mem_newLocks (sid : String) (paths : List String)
    (locks : List FileLock) (l : FileLock) :
    l ∈ ((dedupKeepFirst paths).filter
        (fun p => decide (p ∉ (locks.filter
          (fun l => decide (l.filePath ∈ dedupKeepFirst paths))).map
            (fun l => l.filePath)))).map
      (fun p => ({ sessionId := sid, filePath := p } : FileLock)) ↔
    l.sessionId = sid ∧ l.filePath ∈ paths ∧ l.filePath ∉ lockPaths locks := by
  constructor
  · intro hmem
    obtain ⟨p, hp, hpe⟩ := List.mem_map.mp hmem
    subst hpe
    rcases List.mem_filter.mp hp with ⟨hp1, hp2⟩
    rw [decide_eq_true_eq] at hp2
    refine ⟨rfl, (dedupKeepFirst_mem _ _).mp hp1, fun hmem2 => hp2 ?_⟩
    obtain ⟨l2, hl2, hl2p⟩ := List.mem_map.mp hmem2
    exact List.mem_map.mpr ⟨l2, List.mem_filter.mpr
      ⟨hl2, by rw [decide_eq_true_eq, hl2p]; exact hp1⟩, hl2p⟩
  · rintro ⟨hsid, hp, hnp⟩
    refine List.mem_map.mpr ⟨l.filePath, List.mem_filter.mpr
      ⟨(dedupKeepFirst_mem _ _).mpr hp, ?_⟩, ?_⟩
    · rw [decide_eq_true_eq]
      intro hmem2
      obtain ⟨l2, hl2f, hl2p⟩ := List.mem_map.mp hmem2
      rcases List.mem_filter.mp hl2f with ⟨hl2, _⟩
      exact hnp (List.mem_map.mpr ⟨l2, hl2, hl2p⟩)
    · obtain ⟨s, f⟩ := l
      simp only at hsid
      rw [hsid]

theorem findSyncSession_none_none (l : List Session) :
    findSyncSession Option.none Option.none l = Option.none := by
  induction l with
  | nil => rfl
  | cons s ss ih =>
    simpa [findSyncSession, List.find?] using ih

theorem filter_sessionId_eq_nil (sid : String) (locks : List FileLock) :
    (locks.filter (fun l => decide (l.sessionId ≠ sid))).filter
      (fun l => l.sessionId == sid) = [] := by
  rw [List.filter_eq_nil_iff]
  intro a ha
  rcases List.mem_filter.mp ha with ⟨_, hdec⟩
  rw [decide_eq_true_eq] at hdec
  simpa using hdec

theorem mem_createdSessions (b a : List Session) (c : Session) :
    c ∈ createdSessions b a ↔
      c ∈ a ∧ (b.any (fun t => t.id == c.id)) = false := by
  constructor
  · intro hc
    rcases List.mem_filter.mp hc with ⟨h1, h2⟩
    rw [Bool.not_eq_true'] at h2
    exact ⟨h1, h2⟩
  · rintro ⟨h1, h2⟩
    exact List.mem_filter.mpr ⟨h1, by rw [Bool.not_eq_true']; exact h2⟩

theorem createdSessions_self (l : List Session) : createdSessions l l = [] := by
  rw [List.eq_nil_iff_forall_not_mem]
  intro c hc
  rcases (mem_createdSessions l l c).mp hc with ⟨h1, h2⟩
  have : l.any (fun t => t.id == c.id) = true :=
    List.any_eq_true.mpr ⟨c, h1, by simp⟩
  rw [h2] at this
  exact Bool.false_ne_true this

theorem createdSessions_updateSessionRow (l : List Session) (i : String)
    (f : Session → Session) (hf : ∀ s, (f s).id = s.id) :
    createdSessions l (updateSessionRow l i f) = [] := by
  rw [List.eq_nil_iff_forall_not_mem]
  intro c hc
  rcases (mem_createdSessions l _ c).mp hc with ⟨h1, h2⟩
  obtain ⟨s0, hs0, hs0e⟩ := List.mem_map.mp h1
  have hid : c.id = s0.id := by
    by_cases h0 : s0.id = i
    · rw [← hs0e]
      simp only [h0, if_true]
      rw [hf s0]
      exact h0
    · rw [← hs0e]
      simp only [h0, if_false]
  have : l.any (fun t => t.id == c.id) = true :=
    List.any_eq_true.mpr ⟨s0, hs0, by simp [hid]⟩
  rw [h2] at this
  exact Bool.false_ne_true this

theorem not_mem_createdSessions_updateSessionRow (l : List Session) (i : String)
    (f : Session → Session) (c : Session)
    (hc : c ∈ createdSessions l (updateSessionRow l i f))
    (hf : ∀ s, (f s).id = s.id) : False := by
  rw [createdSessions_updateSessionRow l i f hf] at hc
  exact absurd hc (List.not_mem_nil _)

theorem mem_updateSessionRow_of_id (l : List Session) (i : String)
    (f : Session → Session) (r : Session)
    (hr : r ∈ updateSessionRow l i f)
    (hid : r.id = i) :
    ∃ s0 ∈ l, s0.id = i ∧ r = f s0 := by
  obtain ⟨s0, hs0, hs0e⟩ := List.mem_map.mp hr
  by_cases h0 : s0.id = i
  · rw [if_pos h0] at hs0e
    exact ⟨s0, hs0, h0, hs0e.symm⟩
  · rw [if_neg h0] at hs0e
    rw [← hs0e] at hid
    exact absurd hid h0

theorem reviewWebhookEvent_state_cases (input : ReviewInput) (diff : String)
    (review : ReviewObject) (cascadeOracle : Except String CascadeAnalysisResult)
    (dispatch : Except String JulesCreatedSession) (childUuid : String)
    (st : RegistryState) :
    (reviewWebhookEvent input diff review cascadeOracle dispatch childUuid st).2 = st ∨
    ∃ sess goalRow,
      findActiveReviewSession st.sessions (input.owner ++ "/" ++ input.repo)
        input.branch = some sess ∧
      (reviewWebhookEvent input diff review cascadeOracle dispatch childUuid st).2 =
        (reviewApplyDecision input diff review cascadeOracle dispatch childUuid
          sess goalRow st).2 := by
  rcases hfind : findActiveReviewSession st.sessions
      (input.owner ++ "/" ++ input.repo) input.branch with _ | sess
  · left
    simp [reviewWebhookEvent, hfind]
  · by_cases hdup : isDuplicateCommit sess.lastReviewedCommit input.sha = true
    · left
      simp [reviewWebhookEvent, hfind, hdup]
    · rcases hgid : sess.goalId with _ | goalId
      · left
        simp [reviewWebhookEvent, hfind, hdup, hgid]
      · rcases hgfind : st.goals.find? (fun g => g.id == goalId) with _ | goalRow
        · left
          simp [reviewWebhookEvent, hfind, hdup, hgid, hgfind]
        · by_cases hdiff : (!hasNonWs diff) = true
          · left
            simp [reviewWebhookEvent, hfind, hdup, hgid, hgfind, hdiff]
          · right
            exact ⟨sess, goalRow, rfl,
              by simp [reviewWebhookEvent, hfind, hdup, hgid, hgfind, hdiff]⟩

theorem createdSessions_reviewApplyDecision (input : ReviewInput) (diff : String)
    (review : ReviewObject) (cascadeOracle : Except String CascadeAnalysisResult)
    (dispatch : Except String JulesCreatedSession) (childUuid : String)
    (sess : Session) (goalRow : GoalRow) (st : RegistryState) :
    ∀ c ∈ createdSessions st.sessions
        (reviewApplyDecision input diff review cascadeOracle dispatch childUuid
          sess goalRow st).2.sessions,
      sess.remediationDepth < 3 ∧ c.remediationDepth = sess.remediationDepth + 1 := by
  intro c hc
  simp only [reviewApplyDecision] at hc
  by_cases hfail : reviewHasFailure goalRow review = true
  · rw [if_pos hfail] at hc
    by_cases hdep : sess.remediationDepth ≥ 3
    · rw [if_pos hdep] at hc
      have hc2 : c ∈ createdSessions st.sessions
          (updateSessionRow st.sessions sess.id (fun s =>
            { s with status := SessionStatus.failed,
                     lastError := some "Maximum remediation depth reached. Manual intervention required." })) := hc
      exact absurd (not_mem_createdSessions_updateSessionRow _ _ _ _ hc2
        (fun s => rfl)) id
    · rw [if_neg hdep] at hc
      rcases (mem_createdSessions _ _ c).mp hc with ⟨hmem, hany⟩
      rcases dispatch with msg | js <;>
        rcases List.mem_cons.mp hmem with rfl | hmem2
      · exact ⟨by omega, rfl⟩
      · exact absurd (not_mem_createdSessions_updateSessionRow _ _ _ _
          ((mem_createdSessions _ _ c).mpr ⟨hmem2, hany⟩) (fun s => rfl)) id
      · exact ⟨by omega, rfl⟩
      · exact absurd (not_mem_createdSessions_updateSessionRow _ _ _ _
          ((mem_createdSessions _ _ c).mpr ⟨hmem2, hany⟩) (fun s => rfl)) id
  · rw [if_neg hfail] at hc
    by_cases hdep : sess.remediationDepth < 3
    · rw [if_pos hdep] at hc
      have hc2 : c ∈ createdSessions st.sessions
          (updateSessionRow st.sessions sess.id (fun s =>
            { s with lastReviewedCommit := some input.sha,
                     status := SessionStatus.completed })) := hc
      exact absurd (not_mem_createdSessions_updateSessionRow _ _ _ _ hc2
        (fun s => rfl)) id
    · rw [if_neg hdep] at hc
      have hc2 : c ∈ createdSessions st.sessions st.sessions := hc
      rw [createdSessions_self] at hc2
      exact absurd hc2 (List.not_mem_nil _)

/-! ## Claim theorems -/

/-- Claim C2 (terminality of completed and failed, violated by the code) —
polling reconciliation applies the mapped provider status to an
already-terminal session: syncing a completed session whose provider reports
RUNNING sets it back to executing, where the claim requires a no-op. -/
theorem syncSessionStatus_overwrites_terminal_status :
    (syncSessionStatus (some "s1") Option.none
        { status := "RUNNING" } "2026-02-26T00:00:00Z"
        { sessions := [{ id := "s1", externalSessionId := some "jext-1", branchName := "main", status := .completed }] }).map
      (fun r => r.state.sessions.map (fun s => s.status)) = .ok [.executing] := by
  rfl

/-- Claim C3, counterexample — the review loop transitions the parent
session to completed without deleting its FileLock rows: after a passing
review of a verifying session holding one lock, the session is completed and
the lock table still holds its row. -/
theorem reviewCompletedTransition_keeps_lock :
    ((reviewWebhookEvent
        { eventType := .push, owner := "o", repo := "r", branch := "main", sha := "abc" }
        "x" { severity := .none, summary := "ok", criteriaAssessment := some [] }
        (.error "oracle-unavailable") (.error "dispatch-unavailable") "u1"
        { sessions := [{ id := "s1", goalId := some "g1", sourceRepo := "o/r", branchName := "main", status := .verifying }],
          goals := [{ id := "g1", title := "t" }],
          locks := [{ sessionId := "s1", filePath := "a.ts" }] }).2.sessions.map
      (fun s => (s.id, s.status)) = [("s1", SessionStatus.completed)]) ∧
    (reviewWebhookEvent
        { eventType := .push, owner := "o", repo := "r", branch := "main", sha := "abc" }
        "x" { severity := .none, summary := "ok", criteriaAssessment := some [] }
        (.error "oracle-unavailable") (.error "dispatch-unavailable") "u1"
        { sessions := [{ id := "s1", goalId := some "g1", sourceRepo := "o/r", branchName := "main", status := .verifying }],
          goals := [{ id := "g1", title := "t" }],
          locks := [{ sessionId := "s1", filePath := "a.ts" }] }).2.locks =
      [{ sessionId := "s1", filePath := "a.ts" }] := by
  exact ⟨rfl, rfl⟩

/-- Claim C3 as amended — the terminal-state lock cleanup holds for the sync
service: whenever polling reconciliation maps the provider status to
completed or failed, every FileLock row of the synced session is deleted in
the same step (the review loop, by the counterexample, does not share this
property). -/
theorem syncSessionStatus_terminal_deletes_locks
    (sessionId? externalSessionId? : Option String) (jules : JulesSessionInfo)
    (nowIso : String) (st : RegistryState) (sess : Session) (ext : String)
    (hfind : findSyncSession sessionId? externalSessionId? st.sessions = some sess)
    (hext : sess.externalSessionId = some ext)
    (hterm : mapJulesStatusToRegistryStatus jules.status = some .completed ∨
             mapJulesStatusToRegistryStatus jules.status = some .failed) :
    (syncSessionStatus sessionId? externalSessionId? jules nowIso st).map
      (fun r => r.state.locks.filter (fun l => l.sessionId == sess.id)) = .ok [] := by
  have hboth : (sessionId?.isNone && externalSessionId?.isNone) = false := by
    rcases sessionId? with _ | i
    · rcases externalSessionId? with _ | e
      · rw [findSyncSession_none_none] at hfind
        exact absurd hfind (by simp)
      · rfl
    · rfl
  rcases hterm with hterm | hterm <;>
    simp [syncSessionStatus, hboth, hfind, hext, hterm, Except.map,
      filter_sessionId_eq_nil]

/-- Concrete instance of the amended claim C3: completing a session through
the sync service leaves no lock row for it. -/
theorem syncSessionStatus_terminal_deletes_locks_witness :
    (syncSessionStatus (some "s1") Option.none
        { status := "COMPLETED" } "2026-02-26T00:00:00Z"
        { sessions := [{ id := "s1", externalSessionId := some "jext-1", branchName := "main", status := .executing }],
          locks := [{ sessionId := "s1", filePath := "a.ts" }, { sessionId := "s2", filePath := "b.ts" }] }).map
      (fun r => r.state.locks.filter (fun l => l.sessionId == "s1")) = .ok [] :=
  syncSessionStatus_terminal_deletes_locks (some "s1") Option.none
    { status := "COMPLETED" } "2026-02-26T00:00:00Z"
    { sessions := [{ id := "s1", externalSessionId := some "jext-1", branchName := "main", status := .executing }],
      locks := [{ sessionId := "s1", filePath := "a.ts" }, { sessionId := "s2", filePath := "b.ts" }] }
    { id := "s1", externalSessionId := some "jext-1", branchName := "main", status := .executing }
    "jext-1" (by rfl) rfl (Or.inl rfl)

/-- Claim C1 (lock exclusivity invariant L1) — each of the three lock-manager
mutations of the FileLock table, applied to a table whose paths are pairwise
distinct, yields a table whose paths are pairwise distinct. -/
theorem lockManager_preserves_lock_exclusivity
    (sid oldId newId : String) (paths : List String) (locks : List FileLock)
    (h : (lockPaths locks).Nodup) :
    (lockPaths (acquireLocks sid paths locks).2).Nodup ∧
    (lockPaths (transferLocks oldId newId locks)).Nodup ∧
    (lockPaths (releaseLocks sid locks)).Nodup := by
  refine ⟨?_, ?_, ?_⟩
  · simp only [acquireLocks]
    split
    · exact h
    · split
      · split
        · exact h
        · rw [lockPaths_append, lockPaths_mkLocks, List.nodup_append]
          refine ⟨h, (dedupKeepFirst_nodup paths).filter _, ?_⟩
          intro x hx hx2
          rcases List.mem_filter.mp hx2 with ⟨hp1, hp2⟩
          rw [decide_eq_true_eq] at hp2
          obtain ⟨l, hl, hlp⟩ := List.mem_map.mp hx
          exact hp2 (List.mem_map.mpr ⟨l, List.mem_filter.mpr
            ⟨hl, by rw [decide_eq_true_eq, hlp]; exact hp1⟩, hlp⟩)
      · exact h
  · rw [lockPaths_transferLocks]
    exact h
  · exact h.sublist (List.Sublist.map _ (List.filter_sublist locks))

/-- Concrete instance of claim C1 at an explicit lock table. -/
theorem lockManager_preserves_lock_exclusivity_witness :
    (lockPaths (acquireLocks "s2" ["a.ts", "a.ts"] [⟨"s1", "b.ts"⟩]).2).Nodup ∧
    (lockPaths (transferLocks "s1" "s3" [⟨"s1", "b.ts"⟩])).Nodup ∧
    (lockPaths (releaseLocks "s2" [⟨"s1", "b.ts"⟩])).Nodup :=
  lockManager_preserves_lock_exclusivity "s2" "s1" "s3" ["a.ts", "a.ts"]
    [⟨"s1", "b.ts"⟩] (by decide)

/-- Claim C4 (all-or-nothing acquisition with atomic conflict reporting) —
when some requested path is held by a different session, `acquireLocks`
reports exactly the conflicting rows and leaves the table unchanged; when no
requested path is held by another session, it reports success on the full
requested set and the table gains exactly the requested paths not already
present for the session. -/
theorem acquireLocks_all_or_nothing (sid : String) (paths : List String)
    (locks : List FileLock) :
    ((∃ l ∈ locks, l.filePath ∈ paths ∧ l.sessionId ≠ sid) →
      (acquireLocks sid paths locks).2 = locks ∧
      ∃ cs, (acquireLocks sid paths locks).1 = .conflict cs ∧
        ∀ c : LockConflict, c ∈ cs ↔
          ({ sessionId := c.sessionId, filePath := c.filePath } : FileLock) ∈ locks ∧
          c.filePath ∈ paths ∧ c.sessionId ≠ sid) ∧
    ((∀ l ∈ locks, l.filePath ∈ paths → l.sessionId = sid) →
      ∃ fs, (acquireLocks sid paths locks).1 = .ok fs ∧
        (∀ p, p ∈ fs ↔ p ∈ paths) ∧
        ∀ l : FileLock, l ∈ (acquireLocks sid paths locks).2 ↔
          l ∈ locks ∨
            (l.sessionId = sid ∧ l.filePath ∈ paths ∧ l.filePath ∉ lockPaths locks)) := by
  constructor
  · rintro ⟨l0, hl0, hp0, hs0⟩
    have hne : ¬((dedupKeepFirst paths).isEmpty = true) := by
      rw [List.isEmpty_iff]
      intro hnil
      have := (dedupKeepFirst_mem l0.filePath paths).mpr hp0
      rw [hnil] at this
      exact absurd this (List.not_mem_nil _)
    have hcne : ¬(((locks.filter
        (fun l => decide (l.filePath ∈ dedupKeepFirst paths))).filter
        (fun l => decide (l.sessionId ≠ sid))).isEmpty = true) := by
      rw [List.isEmpty_iff]
      intro hnil
      have := (mem_conflictCandidates sid paths locks l0).mpr ⟨hl0, hp0, hs0⟩
      rw [hnil] at this
      exact absurd this (List.not_mem_nil _)
    have e1 : acquireLocks sid paths locks =
        (.conflict (((locks.filter
            (fun l => decide (l.filePath ∈ dedupKeepFirst paths))).filter
            (fun l => decide (l.sessionId ≠ sid))).map
          (fun l => ({ filePath := l.filePath, sessionId := l.sessionId } : LockConflict))),
          locks) := by
      simp only [acquireLocks]
      rw [if_neg hne, if_neg hcne]
    rw [e1]
    refine ⟨rfl, _, rfl, fun c => ?_⟩
    constructor
    · intro hc
      obtain ⟨l, hl, hle⟩ := List.mem_map.mp hc
      have hm := (mem_conflictCandidates sid paths locks l).mp hl
      cases hle
      exact ⟨hm.1, hm.2.1, hm.2.2⟩
    · intro hc
      exact List.mem_map.mpr ⟨⟨c.sessionId, c.filePath⟩,
        (mem_conflictCandidates sid paths locks _).mpr hc, rfl⟩
  · intro hall
    have hcemp : ((locks.filter
        (fun l => decide (l.filePath ∈ dedupKeepFirst paths))).filter
        (fun l => decide (l.sessionId ≠ sid))).isEmpty = true := by
      rw [List.isEmpty_iff, List.eq_nil_iff_forall_not_mem]
      intro l hl
      have hm := (mem_conflictCandidates sid paths locks l).mp hl
      exact hm.2.2 (hall l hm.1 hm.2.1)
    by_cases hne : (dedupKeepFirst paths).isEmpty = true
    · have hpnil : paths = [] := by
        rcases paths with _ | ⟨p, ps⟩
        · rfl
        · exfalso
          rw [List.isEmpty_iff, List.eq_nil_iff_forall_not_mem] at hne
          exact hne p ((dedupKeepFirst_mem p (p :: ps)).mpr (List.mem_cons_self p ps))
      subst hpnil
      have e0 : acquireLocks sid [] locks = (.ok [], locks) := rfl
      rw [e0]
      refine ⟨[], rfl, by simp, fun l => ?_⟩
      constructor
      · exact Or.inl
      · rintro (hl | ⟨_, hmem, _⟩)
        · exact hl
        · exact absurd hmem (List.not_mem_nil _)
    · have e1 : acquireLocks sid paths locks =
          (if (((dedupKeepFirst paths).filter
              (fun p => decide (p ∉ (locks.filter
                (fun l => decide (l.filePath ∈ dedupKeepFirst paths))).map
                  (fun l => l.filePath)))).map
              (fun p => ({ sessionId := sid, filePath := p } : FileLock))).isEmpty then
            (.ok (dedupKeepFirst paths), locks)
          else
            (.ok (dedupKeepFirst paths), locks ++
              ((dedupKeepFirst paths).filter
                (fun p => decide (p ∉ (locks.filter
                  (fun l => decide (l.filePath ∈ dedupKeepFirst paths))).map
                    (fun l => l.filePath)))).map
                (fun p => ({ sessionId := sid, filePath := p } : FileLock)))) := by
        simp only [acquireLocks]
        rw [if_neg hne, if_pos hcemp]
      rw [e1]
      by_cases hNew : (((dedupKeepFirst paths).filter
          (fun p => decide (p ∉ (locks.filter
            (fun l => decide (l.filePath ∈ dedupKeepFirst paths))).map
              (fun l => l.filePath)))).map
          (fun p => ({ sessionId := sid, filePath := p } : FileLock))).isEmpty = true
      · rw [if_pos hNew]
        refine ⟨dedupKeepFirst paths, rfl, fun p => dedupKeepFirst_mem p paths, fun l => ?_⟩
        rw [List.isEmpty_iff, List.eq_nil_iff_forall_not_mem] at hNew
        constructor
        · exact Or.inl
        · rintro (hl | hprops)
          · exact hl
          · exact absurd ((mem_newLocks sid paths locks l).mpr hprops) (hNew l)
      · rw [if_neg hNew]
        refine ⟨dedupKeepFirst paths, rfl, fun p => dedupKeepFirst_mem p paths, fun l => ?_⟩
        rw [List.mem_append]
        constructor
        · rintro (hl | hl)
          · exact Or.inl hl
          · exact Or.inr ((mem_newLocks sid paths locks l).mp hl)
        · rintro (hl | hprops)
          · exact Or.inl hl
          · exact Or.inr ((mem_newLocks sid paths locks l).mpr hprops)

/-- Concrete instance of claim C4 at an explicit lock table, exercising both
the conflict branch and the success branch. -/
theorem acquireLocks_all_or_nothing_witness :
    ((acquireLocks "s2" ["page.ts", "layout.ts"] [⟨"s1", "page.ts"⟩]).2 =
        [⟨"s1", "page.ts"⟩] ∧
      ∃ cs, (acquireLocks "s2" ["page.ts", "layout.ts"]
          [⟨"s1", "page.ts"⟩]).1 = .conflict cs ∧
        ∀ c : LockConflict, c ∈ cs ↔
          ({ sessionId := c.sessionId, filePath := c.filePath } : FileLock) ∈
              [(⟨"s1", "page.ts"⟩ : FileLock)] ∧
            c.filePath ∈ ["page.ts", "layout.ts"] ∧ c.sessionId ≠ "s2") ∧
    (∃ fs, (acquireLocks "s1" ["page.ts", "layout.ts"]
        [⟨"s1", "page.ts"⟩]).1 = .ok fs ∧
      (∀ p, p ∈ fs ↔ p ∈ ["page.ts", "layout.ts"]) ∧
      ∀ l : FileLock, l ∈ (acquireLocks "s1" ["page.ts", "layout.ts"]
          [⟨"s1", "page.ts"⟩]).2 ↔
        l ∈ [(⟨"s1", "page.ts"⟩ : FileLock)] ∨
          (l.sessionId = "s1" ∧ l.filePath ∈ ["page.ts", "layout.ts"] ∧
            l.filePath ∉ lockPaths [⟨"s1", "page.ts"⟩])) :=
  ⟨(acquireLocks_all_or_nothing "s2" ["page.ts", "layout.ts"]
      [⟨"s1", "page.ts"⟩]).1 ⟨⟨"s1", "page.ts"⟩, by decide, by decide, by decide⟩,
    (acquireLocks_all_or_nothing "s1" ["page.ts", "layout.ts"]
      [⟨"s1", "page.ts"⟩]).2 (by decide)⟩

/-- Claim C5 (bounded remediation S3) — in both remediation paths (review
failure and CI-failure autoRemediate) a child session is inserted only when
the located parent has remediationDepth strictly below 3, and the child
depth is the parent depth plus one, hence at most 3; no other session row is
created by either path. -/
theorem remediation_depth_bounded
    (input : ReviewInput) (diff : String) (review : ReviewObject)
    (cascadeOracle : Except String CascadeAnalysisResult)
    (dispatch : Except String JulesCreatedSession) (childUuid : String)
    (sessionId logs : String) (nowMs : Nat) (st : RegistryState) :
    (∀ c ∈ createdSessions st.sessions
        (reviewWebhookEvent input diff review cascadeOracle dispatch childUuid st).2.sessions,
      ∃ p, findActiveReviewSession st.sessions (input.owner ++ "/" ++ input.repo)
            input.branch = some p ∧
        p.remediationDepth < 3 ∧ c.remediationDepth = p.remediationDepth + 1 ∧
        c.remediationDepth ≤ 3) ∧
    (∀ c ∈ createdSessions st.sessions
        (autoRemediate sessionId logs childUuid nowMs dispatch st).2.sessions,
      ∃ p ∈ st.sessions, p.remediationDepth < 3 ∧
        c.remediationDepth = p.remediationDepth + 1 ∧ c.remediationDepth ≤ 3) := by
  constructor
  · intro c hc
    rcases reviewWebhookEvent_state_cases input diff review cascadeOracle dispatch
        childUuid st with heq | ⟨sess, goalRow, hfind, heq⟩
    · rw [heq] at hc
      rw [createdSessions_self] at hc
      exact absurd hc (List.not_mem_nil _)
    · rw [heq] at hc
      have hdec := createdSessions_reviewApplyDecision input diff review
        cascadeOracle dispatch childUuid sess goalRow st c hc
      exact ⟨sess, hfind, hdec.1, hdec.2, by omega⟩
  · intro c hc
    rcases hfind2 : st.sessions.find? (fun s => s.id == sessionId) with _ | sess
    · simp only [autoRemediate, hfind2] at hc
      rw [createdSessions_self] at hc
      exact absurd hc (List.not_mem_nil _)
    · simp only [autoRemediate, hfind2] at hc
      split at hc
      · rw [createdSessions_self] at hc
        exact absurd hc (List.not_mem_nil _)
      · rename_i hdep
        have hmemP : sess ∈ st.sessions := List.mem_of_find?_eq_some hfind2
        rcases (mem_createdSessions _ _ c).mp hc with ⟨hmem, hany⟩
        rcases hcasc : sess.cascadeId with _ | cid <;>
          rw [hcasc] at hmem <;>
          rcases dispatch with js | msg <;>
          rcases List.mem_cons.mp hmem with rfl | hmem2
        · exact ⟨sess, hmemP, by omega, rfl,
            by show sess.remediationDepth + 1 ≤ 3; omega⟩
        · have ht : st.sessions.any (fun t => t.id == c.id) = true :=
            List.any_eq_true.mpr ⟨c, hmem2, by simp⟩
          rw [hany] at ht
          exact absurd ht Bool.false_ne_true
        · exact ⟨sess, hmemP, by omega, rfl,
            by show sess.remediationDepth + 1 ≤ 3; omega⟩
        · have ht : st.sessions.any (fun t => t.id == c.id) = true :=
            List.any_eq_true.mpr ⟨c, hmem2, by simp⟩
          rw [hany] at ht
          exact absurd ht Bool.false_ne_true
        · exact ⟨sess, hmemP, by omega, rfl,
            by show sess.remediationDepth + 1 ≤ 3; omega⟩
        · have ht : st.sessions.any (fun t => t.id == c.id) = true :=
            List.any_eq_true.mpr ⟨c, hmem2, by simp⟩
          rw [hany] at ht
          exact absurd ht Bool.false_ne_true
        · exact ⟨sess, hmemP, by omega, rfl,
            by show sess.remediationDepth + 1 ≤ 3; omega⟩
        · have ht : st.sessions.any (fun t => t.id == c.id) = true :=
            List.any_eq_true.mpr ⟨c, hmem2, by simp⟩
          rw [hany] at ht
          exact absurd ht Bool.false_ne_true

/-- Concrete instance of claim C5: a failing review of a depth-1 parent
spawns a child at depth 2, within the bound. -/
theorem remediation_depth_bounded_witness :
    ∃ p, findActiveReviewSession remediationParentState.sessions
        (pushReviewInput.owner ++ "/" ++ pushReviewInput.repo)
        pushReviewInput.branch = some p ∧
      p.remediationDepth < 3 ∧
      remediationChildFailed.remediationDepth = p.remediationDepth + 1 ∧
      remediationChildFailed.remediationDepth ≤ 3 :=
  (remediation_depth_bounded pushReviewInput "x" majorReviewObject (.error "e")
      (.error "e") "u1" "p1" "logs" 0 remediationParentState).1
    remediationChildFailed (by decide)

/-- Claim C6, counterexample — a reviewed event with no failure on a
non-terminal parent at remediation depth 3 is not marked completed: the
review is posted, the failure condition is false, yet the parent keeps its
status and lastReviewedCommit is not set. -/
theorem reviewPass_at_depth3_leaves_parent :
    (reviewWebhookEvent pushReviewInput "x" cleanReviewObject
        (.error "e") (.error "e") "u1" depth3State).1.outcome = .reviewPosted ∧
    reviewHasFailure goalRowG1 cleanReviewObject = false ∧
    (reviewWebhookEvent pushReviewInput "x" cleanReviewObject
        (.error "e") (.error "e") "u1" depth3State).2.sessions.map
      (fun s => (s.status, s.lastReviewedCommit)) =
      [(SessionStatus.verifying, Option.none)] :=
  ⟨rfl, rfl, rfl⟩

/-- Claim C6 as amended — for every reviewed event whose failure condition
is false, with a non-terminal parent whose remediationDepth is below 3, the
review loop marks the parent completed and sets lastReviewedCommit to the
event commit (at depth 3 the parent is left untouched, by the
counterexample). -/
theorem review_pass_completes_parent
    (input : ReviewInput) (diff : String) (review : ReviewObject)
    (cascadeOracle : Except String CascadeAnalysisResult)
    (dispatch : Except String JulesCreatedSession) (childUuid : String)
    (st : RegistryState) (sess : Session) (goalId : String) (goalRow : GoalRow)
    (hfind : findActiveReviewSession st.sessions
      (input.owner ++ "/" ++ input.repo) input.branch = some sess)
    (hdup : isDuplicateCommit sess.lastReviewedCommit input.sha = false)
    (hgid : sess.goalId = some goalId)
    (hgfind : st.goals.find? (fun g => g.id == goalId) = some goalRow)
    (hdiff : hasNonWs diff = true)
    (hnofail : reviewHasFailure goalRow review = false)
    (hdepth : sess.remediationDepth < 3) :
    ∀ r ∈ (reviewWebhookEvent input diff review cascadeOracle dispatch childUuid st).2.sessions,
      r.id = sess.id →
        r.status = .completed ∧ r.lastReviewedCommit = some input.sha := by
  have heq : reviewWebhookEvent input diff review cascadeOracle dispatch childUuid st =
      reviewApplyDecision input diff review cascadeOracle dispatch childUuid
        sess goalRow st := by
    simp [reviewWebhookEvent, hfind, hdup, hgid, hgfind, hdiff]
  rw [heq]
  intro r hr hid
  simp only [reviewApplyDecision] at hr
  rw [if_neg (by simp [hnofail]), if_pos hdepth] at hr
  have hr2 : r ∈ updateSessionRow st.sessions sess.id (fun s =>
      { s with lastReviewedCommit := some input.sha,
               status := SessionStatus.completed }) := hr
  obtain ⟨s0, hs0, h0, hre⟩ := mem_updateSessionRow_of_id _ _ _ _ hr2 hid
  rw [hre]
  exact ⟨rfl, rfl⟩

/-- Concrete instance of the amended claim C6: a passing review of the
depth-0 verifying session marks it completed on the reviewed commit. -/
theorem review_pass_completes_parent_witness :
    completedParent.status = SessionStatus.completed ∧
    completedParent.lastReviewedCommit = some "abc" :=
  review_pass_completes_parent pushReviewInput "x" cleanReviewObject
    (.error "e") (.error "e") "u1" reviewPassState verifyingParent "g1" goalRowG1
    (by decide) (by decide) rfl (by decide) (by decide) (by decide) (by decide)
    completedParent (by decide) rfl

theorem pairwiseDisjointFilesB_sublist {l1 l2 : List CascadeRepairJob}
    (h : l1.Sublist l2) (h2 : pairwiseDisjointFilesB l2 = true) :
    pairwiseDisjointFilesB l1 = true := by
  induction h with
  | slnil => rfl
  | cons a h ih =>
    simp only [pairwiseDisjointFilesB, Bool.and_eq_true] at h2
    exact ih h2.2
  | cons₂ a h ih =>
    simp only [pairwiseDisjointFilesB, Bool.and_eq_true] at h2 ⊢
    obtain ⟨hall, hpd⟩ := h2
    refine ⟨?_, ih hpd⟩
    rw [List.all_eq_true] at hall ⊢
    intro k hk
    exact hall k (h.subset hk)

/-- Claim C7, counterexample — the cascade engine does not enforce
disjointness of the repair-job file sets: an oracle output whose two jobs
share a path passes through `analyzeCascade` unchanged, so the returned jobs
are not pairwise disjoint. -/
theorem analyzeCascade_not_disjoint :
    pairwiseDisjointFilesB
      (analyzeCascade [schemaChange] (.ok overlappingOracle)).repairJobs = false ∧
    (analyzeCascade [schemaChange] (.ok overlappingOracle)).repairJobs =
      overlappingOracle.repairJobs := by
  exact ⟨by decide, by decide⟩

/-- Claim C7 as amended — `analyzeCascade` preserves disjointness but does
not enforce it: whenever the oracle output has pairwise-disjoint job file
sets, the returned job list (a sublist of it) is pairwise disjoint;
disjointness itself is only requested of the oracle in the prompt. -/
theorem analyzeCascade_preserves_disjointness
    (files : List FileChange) (oracle : Except String CascadeAnalysisResult)
    (h : ∀ res, oracle = .ok res → pairwiseDisjointFilesB res.repairJobs = true) :
    pairwiseDisjointFilesB (analyzeCascade files oracle).repairJobs = true := by
  simp only [analyzeCascade]
  split
  · rfl
  · rcases oracle with msg | res
    · rfl
    · have hres := h res rfl
      refine pairwiseDisjointFilesB_sublist ?_ hres
      exact (List.take_sublist _ _).trans (List.filter_sublist _)

/-- Concrete instance of the amended claim C7 at a disjoint oracle output. -/
theorem analyzeCascade_preserves_disjointness_witness :
    pairwiseDisjointFilesB
      (analyzeCascade [schemaChange] (.ok disjointOracle)).repairJobs = true :=
  analyzeCascade_preserves_disjointness [schemaChange] (.ok disjointOracle)
    (fun res hres => by cases hres; decide)

/-- Claim C8, counterexample — the parallelism cap keeps the first five jobs
in oracle order rather than the highest-priority jobs: with five low-priority
jobs listed before one high-priority job, the high-priority job is dropped
and every kept job is low priority. -/
theorem analyzeCascade_cap_drops_high_priority :
    (analyzeCascade [schemaChange] (.ok sixJobOracle)).repairJobs.length = 5 ∧
    highJobH6 ∈ sixJobOracle.repairJobs ∧
    highJobH6.priority = .high ∧
    highJobH6 ∉ (analyzeCascade [schemaChange] (.ok sixJobOracle)).repairJobs ∧
    (analyzeCascade [schemaChange] (.ok sixJobOracle)).repairJobs.all
      (fun j => j.priority == .low) = true := by
  refine ⟨by decide, by decide, by decide, by decide, by decide⟩

/-- Claim C8 as amended — when a core file changed, the jobs of an answering
oracle are all discarded below the confidence floor, and otherwise truncated
to the first `maxParallelAgents` jobs in the order the oracle listed them
(no reordering by priority). -/
theorem analyzeCascade_confidence_floor_and_cap
    (files : List FileChange) (res : CascadeAnalysisResult)
    (hcore : (files.filter (fun c => isCoreFile c.filePath)).isEmpty = false) :
    (analyzeCascade files (.ok res)).repairJobs =
      if CASCADE_CONFIG.minConfidenceScore ≤ res.confidence then
        res.repairJobs.take CASCADE_CONFIG.maxParallelAgents
      else [] := by
  simp only [analyzeCascade]
  rw [if_neg (by simp [hcore])]
  by_cases hc : CASCADE_CONFIG.minConfidenceScore ≤ res.confidence
  · rw [if_pos hc]
    show (res.repairJobs.filter
        (fun _ => decide (CASCADE_CONFIG.minConfidenceScore ≤ res.confidence))).take
      CASCADE_CONFIG.maxParallelAgents = res.repairJobs.take CASCADE_CONFIG.maxParallelAgents
    congr 1
    simp [hc]
  · rw [if_neg hc]
    show (res.repairJobs.filter
        (fun _ => decide (CASCADE_CONFIG.minConfidenceScore ≤ res.confidence))).take
      CASCADE_CONFIG.maxParallelAgents = []
    simp [hc]

/-- Concrete instance of the amended claim C8. -/
theorem analyzeCascade_confidence_floor_and_cap_witness :
    (analyzeCascade [schemaChange] (.ok sixJobOracle)).repairJobs =
      if CASCADE_CONFIG.minConfidenceScore ≤ sixJobOracle.confidence then
        sixJobOracle.repairJobs.take CASCADE_CONFIG.maxParallelAgents
      else [] :=
  analyzeCascade_confidence_floor_and_cap [schemaChange] sixJobOracle (by decide)

/-- Claim C9 (automated-commit suppression) — a push event with an owner
whose author candidates contain the bot name, or whose commit messages
contain the auto marker, is skipped: the handler returns the ignored outcome
before any review or cascade work. -/
theorem automated_push_skipped (p : PushPayload) (o : String)
    (howner : (match p.ownerLogin with
      | some l => some l
      | Option.none => p.ownerName) = some o)
    (h : (pushAuthorCandidates p).any (fun a => containsSeq "jules".data a) = true ∨
         (pushCommitMessages p).any (fun m => containsSeq "[nexus-auto]".data m) = true) :
    handlePushEvent p = .ignoredAutomated := by
  have hauto : isAutomatedCommit p = true := by
    rcases h with h | h
    · simp [isAutomatedCommit, h]
    · by_cases ha : (pushAuthorCandidates p).any (fun a => containsSeq "jules".data a) = true
      · simp [isAutomatedCommit, ha]
      · simp [isAutomatedCommit, ha, h]
  simp [handlePushEvent, howner, hauto]

/-- Concrete instance of claim C9: a push whose commit messages carry the
auto marker is skipped. -/
theorem automated_push_skipped_witness :
    handlePushEvent autoPush = .ignoredAutomated :=
  automated_push_skipped autoPush "o" rfl (Or.inr (by decide))

theorem updateSessionRow_idem (rows : List Session) (i : String)
    (f : Session → Session) (hf : ∀ s, (f s).id = s.id)
    (hff : ∀ s, f (f s) = f s) :
    updateSessionRow (updateSessionRow rows i f) i f = updateSessionRow rows i f := by
  induction rows with
  | nil => rfl
  | cons s ss ih =>
    simp only [updateSessionRow, List.map_cons] at ih ⊢
    rw [ih]
    by_cases hs : s.id = i
    · simp only [hs, if_true]
      rw [if_pos (by rw [hf]; exact hs), hff]
    · simp only [hs, if_false]

theorem releaseLocks_idem (sid : String) (locks : List FileLock) :
    releaseLocks sid (releaseLocks sid locks) = releaseLocks sid locks := by
  simp only [releaseLocks, List.filter_filter]
  refine List.filter_congr ?_
  intro a _
  exact Bool.and_self _

/-- Claim C10 (force-terminate is total and idempotent) — for every
non-empty session id, the terminate endpoint succeeds (never NotFound, also
when no session row carries the id), deletes every FileLock row of the id,
and repeating the call returns the same response and leaves the registry
unchanged. -/
theorem terminateSession_success_idempotent (id : String) (st : RegistryState)
    (hid : id ≠ "") :
    ∃ r st1, terminateSession id st = .ok (r, st1) ∧
      r.success = true ∧ r.sessionId = id ∧
      st1.locks.filter (fun l => l.sessionId == id) = [] ∧
      terminateSession id st1 = .ok (r, st1) := by
  have hbeq : ¬((id == "") = true) := by
    intro hx
    exact hid (by simpa using hx)
  refine ⟨{ success := true, message := "Session terminated and locks released", sessionId := id },
    { st with
        sessions := updateSessionRow st.sessions id (fun s =>
          { s with status := SessionStatus.failed,
                   lastError := some "Manually terminated by Admin/Test teardown" })
        locks := releaseLocks id st.locks },
    ?_, rfl, rfl, ?_, ?_⟩
  · simp only [terminateSession]
    rw [if_neg hbeq]
  · exact filter_sessionId_eq_nil id st.locks
  · simp only [terminateSession]
    rw [if_neg hbeq]
    show (Except.ok
        (({ success := true, message := "Session terminated and locks released", sessionId := id } : TerminateResult),
         ({ st with
             sessions := updateSessionRow (updateSessionRow st.sessions id (fun s =>
               { s with status := SessionStatus.failed,
                        lastError := some "Manually terminated by Admin/Test teardown" })) id
               (fun s =>
                 { s with status := SessionStatus.failed,
                          lastError := some "Manually terminated by Admin/Test teardown" })
             locks := releaseLocks id (releaseLocks id st.locks) } : RegistryState)) :
      Except String (TerminateResult × RegistryState)) = _
    rw [updateSessionRow_idem st.sessions id (fun s =>
          { s with status := SessionStatus.failed,
                   lastError := some "Manually terminated by Admin/Test teardown" })
        (fun s => rfl) (fun s => rfl),
      releaseLocks_idem]

/-- Concrete instance of claim C10: terminating an id with no matching
session row still succeeds, releases its lock rows and repeats unchanged. -/
theorem terminateSession_success_idempotent_witness :
    ∃ r st1, terminateSession "s1"
        { sessions := [{ id := "s2", branchName := "main", status := .executing }],
          locks := [{ sessionId := "s1", filePath := "a.ts" }, { sessionId := "s2", filePath := "b.ts" }] } = .ok (r, st1) ∧
      r.success = true ∧ r.sessionId = "s1" ∧
      st1.locks.filter (fun l => l.sessionId == "s1") = [] ∧
      terminateSession "s1" st1 = .ok (r, st1) :=
  terminateSession_success_idempotent "s1"
    { sessions := [{ id := "s2", branchName := "main", status := .executing }],
      locks := [{ sessionId := "s1", filePath := "a.ts" }, { sessionId := "s2", filePath := "b.ts" }] }
    (by decide)

end Nexus
